import Mathlib

/-!
Verification development for the `pshs` ("pretty small http server") bootstrap
in `src/main.cxx`. The C++ code is shallowly embedded: the option-parsing loop,
the port validation via `strtol`, the `./`-stripping of file operands, the
random-port draw, the route registration, the announced service URL, the
signal-watcher installation loop, and the scope-exit destruction order are all
transcribed as executable Lean definitions, and the specified properties are
proved or refuted against them.
-/

namespace Pshs

/-! Embedding of the file-operand normalization (main.cxx lines 153-158).

For each operand the code checks `argv[i][0] == '.' && argv[i][1] == '/'` and,
if so, advances the pointer by two characters, once per operand. -/

/-- Strip a single leading "./" from an operand, exactly as the pointer bump
`argv[i] += 2` guarded by `argv[i][0] == '.' && argv[i][1] == '/'` does. -/
def normalize (s : String) : String :=
  match s.data with
  | '.' :: '/' :: rest => String.mk rest
  | _ => s

/-! Embedding of the random port draw (main.cxx lines 197-203).

When no port was supplied, the code runs `port = random() % 0x7bff + 0x400`.
POSIX `random()` returns a value in `[0, 2^31 - 1]`. -/

/-- Number of distinct outputs of `random()`: it ranges over `[0, 2^31 - 1]`. -/
def randRange : Nat := 2 ^ 31

/-- The port picked from a generator output `r`: `r % 0x7bff + 0x400`. -/
def draw (r : Nat) : Nat := r % 0x7bff + 0x400

/-- How many generator outputs in `[0, randRange)` map to the port `v`. -/
def drawCount (v : Nat) : Nat :=
  ((Finset.range randRange).filter (fun r => draw r = v)).card

/-! Embedding of the route registration (main.cxx lines 182-195).

`evhttp_set_allowed_methods(http, EVHTTP_REQ_GET | EVHTTP_REQ_HEAD)`;
`evhttp_set_gencb(http, handle_file, ...)` installs the generic file callback;
`evhttp_set_cb(http, uri, handle_index, ...)` installs an exact-match callback
at `/` when no prefix is set, else at the string built by
`index_uri << '/' << prefix << '/'`. -/

inductive Method
  | GET
  | HEAD
  | POST
  | PUT
  | DELETE
deriving Repr, DecidableEq

/-- The methods passed to `evhttp_set_allowed_methods`. -/
def allowedMethods : List Method := [Method.GET, Method.HEAD]

inductive Handler
  | index
  | file
deriving Repr, DecidableEq

/-- The exact path the index callback is registered at:
`"/"` without a prefix, `"/" ++ p ++ "/"` with prefix `p`
(transcribing `index_uri << '/' << prefix << '/'`). -/
def index_uri (pfx : Option String) : String :=
  match pfx with
  | none => "/"
  | some p => "/" ++ p ++ "/"

/-- Which handler serves a given request path: libevent dispatches an
exact-match callback when the path equals the registered URI, and the
generic callback (`handle_file`) otherwise. -/
def route (pfx : Option String) (path : String) : Handler :=
  if path = index_uri pfx then Handler.index else Handler.file

/-! Embedding of the announced service URL (main.cxx lines 228-248).

Only when `extip.addr` is non-null, the code builds
`server_uri << "http"` (plus `'s'` if ssl) `<< "://" << extip.addr << ':'
<< port << '/'`, then the prefix plus `'/'` when set, then the
`evhttp_encode_uri`-encoded single operand when `argc - optind == 1`. -/

/-- The URL string assembled into `server_uri`; `enc` stands for the external
`evhttp_encode_uri` collaborator. -/
def server_uri (enc : String → String) (ssl : Bool) (addr : String)
    (port : Nat) (pfx : Option String) (files : List String) : String :=
  "http" ++ (if ssl then "s" else "") ++ "://" ++ addr ++ ":" ++ toString port
    ++ "/"
    ++ (match pfx with
        | some p => p ++ "/"
        | none => "")
    ++ (match files with
        | [f] => enc f
        | _ => "")

/-- The announcement step: `if (extip.addr) { ... fprintf / print_qrcode }`.
Returns the emitted URL, or `none` when no external address was resolved. -/
def announce (enc : String → String) (ssl : Bool) (extipAddr : Option String)
    (port : Nat) (pfx : Option String) (files : List String) : Option String :=
  match extipAddr with
  | none => none
  | some addr => some (server_uri enc ssl addr port pfx files)

/-! Embedding of the scope-exit destruction order (main.cxx lines 167-261).

The RAII objects of `main`, in declaration order: `evb` (event loop, line 167),
`http` (listener, line 175), `ct` (content classifier, line 220), `extip`
(line 223), `ssl_mod` (TLS context, line 224), `sigevents` (signal watchers,
line 250). After `event_base_dispatch` returns and `main` returns 0, C++ runs
their destructors in reverse declaration order. -/

inductive Resource
  | eventLoop
  | listener
  | contentType
  | externalIP
  | tlsContext
  | signalWatchers
deriving Repr, DecidableEq

/-- The RAII objects of `main` in declaration (construction) order. -/
def declOrder : List Resource :=
  [Resource.eventLoop, Resource.listener, Resource.contentType,
   Resource.externalIP, Resource.tlsContext, Resource.signalWatchers]

/-- Destruction order: C++ destroys automatic objects in reverse declaration order. -/
def destructionOrder : List Resource := declOrder.reverse

/-- The four resources named by the lifecycle specification. -/
def isCoreResource : Resource → Bool
  | Resource.eventLoop => true
  | Resource.listener => true
  | Resource.tlsContext => true
  | Resource.signalWatchers => true
  | _ => false

/-- The destruction order restricted to the event loop, listener, TLS context
and signal watchers. -/
def releaseOrder : List Resource := destructionOrder.filter isCoreResource

/-! Embedding of the signal-watcher installation loop (main.cxx lines 250-261).

```
sigevents[i] = {evsignal_new(...), event_free};
if (!sigevents[i])
    fprintf(stderr, "evsignal_new(%d) failed.\n", sigs[i]);
else;
    event_add(sigevents[i].get(), NULL);
```
The `else;` is an empty statement, so `event_add` is a separate statement that
executes on every iteration, whether or not `evsignal_new` succeeded. -/

structure SigState where
  installed : Bool
  warned : Bool
  armed : Bool
deriving Repr, DecidableEq

/-- One iteration of the installation loop, as a function of whether
`evsignal_new` succeeded: the warning is printed exactly on failure, and
`event_add` (arming) runs unconditionally because of the empty `else;`. -/
def sigInstallStep (ok : Bool) : SigState :=
  { installed := ok, warned := !ok, armed := true }

/-- The whole loop over the five signals, given each `evsignal_new` outcome. -/
def sigInstallLoop (oks : List Bool) : List SigState := oks.map sigInstallStep

/-! Embedding of the command-line parsing (main.cxx lines 62-165).

The option loop is `getopt_long(argc, argv, "hVb:p:P:sU", opts, NULL)` with the
long-option table `opts` of lines 62-73 (entries `help`, `version`, `bind`,
`port`, `ssl`, `no-upnp` — note that the table has no `prefix` entry, although
the short string accepts `P:` and the help text documents `--prefix`).
GNU `getopt_long` permutes: operand tokens are collected and option tokens are
processed in order; `--` ends option scanning; a lone `-` is an operand; an
unrecognized or ill-formed option yields `'?'`, which the `switch` sends to
`default:` — printing the usage text and returning 0, the same path as `-h`.
`-V` prints the version and returns 0. `case 'p'` validates the port with
`strtol(optarg, &tmp, 0)` and `if (*tmp || !port || port >= 0xffff) return 1`.
After the loop, `argc == optind` (zero operands) returns 1, and each operand's
leading `./` is stripped. -/

structure LongOpt where
  name : String
  hasArg : Bool
  val : Char
deriving Repr, DecidableEq

/-- The `opts` table (lines 62-73). It has no entry for `prefix`. -/
def opts : List LongOpt :=
  [⟨"help", false, 'h'⟩, ⟨"version", false, 'V'⟩,
   ⟨"bind", true, 'b'⟩, ⟨"port", true, 'p'⟩,
   ⟨"ssl", false, 's'⟩, ⟨"no-upnp", false, 'U'⟩]

/-- The short options of the string `"hVb:p:P:sU"`: each with whether it takes
a required argument. -/
def shortOpts : List (Char × Bool) :=
  [('h', false), ('V', false), ('b', true), ('p', true), ('P', true),
   ('s', false), ('U', false)]

def lookupShort (c : Char) : Option Bool :=
  (shortOpts.find? (fun p => p.1 = c)).map (fun p => p.2)

def listStartsWith : List Char → List Char → Bool
  | [], _ => true
  | _ :: _, [] => false
  | c :: cs, d :: ds => c = d && listStartsWith cs ds

/-- `getopt_long` long-name resolution: an exact table match wins; otherwise a
unique abbreviation matches; no match or an ambiguous abbreviation yields
`'?'` (here `none`). -/
def matchLong (nm : String) : Option LongOpt :=
  match opts.find? (fun o => o.name = nm) with
  | some o => some o
  | none =>
    match opts.filter (fun o => listStartsWith nm.data o.name.data) with
    | [o] => some o
    | _ => none

/-- Split a long-option body `name=value` at the first `=`. -/
def splitEqAux (acc : List Char) : List Char → List Char × Option (List Char)
  | [] => (acc.reverse, none)
  | '=' :: cs => (acc.reverse, some cs)
  | c :: cs => splitEqAux (c :: acc) cs

def splitEq (body : List Char) : String × Option String :=
  match splitEqAux [] body with
  | (nm, none) => (String.mk nm, none)
  | (nm, some v) => (String.mk nm, some (String.mk v))

/-! Embedding of `strtol(optarg, &tmp, 0)` (main.cxx line 120). -/

def isSpace (c : Char) : Bool :=
  c = ' ' || c = '\t' || c = '\n' || c = '\x0b' || c = '\x0c' || c = '\r'

/-- The value of `c` as a digit in base `b`, if it is one. -/
def digitVal (b : Nat) (c : Char) : Option Nat :=
  let v? : Option Nat :=
    if '0' ≤ c && c ≤ '9' then some (c.toNat - '0'.toNat)
    else if 'a' ≤ c && c ≤ 'z' then some (c.toNat - 'a'.toNat + 10)
    else if 'A' ≤ c && c ≤ 'Z' then some (c.toNat - 'A'.toNat + 10)
    else none
  match v? with
  | some v => if v < b then some v else none
  | none => none

/-- Consume leading base-`b` digits, returning their value and the rest. -/
def parseDigits (b : Nat) : Nat → List Char → Nat × List Char
  | acc, [] => (acc, [])
  | acc, c :: cs =>
    match digitVal b c with
    | some v => parseDigits b (acc * b + v) cs
    | none => (acc, c :: cs)

/-- Conversion of a parsed magnitude and sign to the `long` value `strtol`
returns on a 64-bit platform: on overflow the result saturates at
`LONG_MAX = 2^63 - 1` (positive) or `LONG_MIN = -2^63` (negative), with
`errno = ERANGE` — which the program never checks. -/
def clampLong (neg : Bool) (mag : Nat) : Int :=
  if neg then
    if 2 ^ 63 ≤ mag then -(2 ^ 63) else -(mag : Int)
  else
    if 2 ^ 63 ≤ mag then 2 ^ 63 - 1 else (mag : Int)

/-- Model of `strtol(nptr, &endptr, 0)`: skip whitespace, optional sign, then
base detection (`0x`/`0X` hex, leading `0` octal, else decimal). Returns the
value — saturated to `[LONG_MIN, LONG_MAX]` via `clampLong` exactly as
`strtol` does on overflow — and the suffix `endptr` points to; `endptr` is
past the whole digit sequence even on overflow; when no conversion is
performed the whole input is returned (so `*endptr` is the first input
character). -/
def strtol0 (s : List Char) : Int × List Char :=
  let t := s.dropWhile isSpace
  let signed : Bool × List Char :=
    match t with
    | '-' :: cs => (true, cs)
    | '+' :: cs => (false, cs)
    | cs => (false, cs)
  let neg := signed.1
  let u := signed.2
  match u with
  | '0' :: c :: cs =>
    if c = 'x' || c = 'X' then
      match cs with
      | d :: _ =>
        if (digitVal 16 d).isSome then
          let r := parseDigits 16 0 cs
          (clampLong neg r.1, r.2)
        else (0, c :: cs)
      | [] => (0, c :: cs)
    else
      let r := parseDigits 8 0 (c :: cs)
      (clampLong neg r.1, r.2)
  | ['0'] => (0, [])
  | d :: _ =>
    if (digitVal 10 d).isSome then
      let r := parseDigits 10 0 u
      (clampLong neg r.1, r.2)
    else (0, s)
  | [] => (0, s)

/-- Conversion of the `long` result to the `unsigned int` variable `port`:
reduction modulo 2^32. -/
def toUInt32Nat (v : Int) : Nat := (v % (2 ^ 32 : Int)).toNat

/-- The `case 'p'` validation: `port = strtol(optarg, &tmp, 0)` then
`if (*tmp || !port || port >= 0xffff) return 1` — `none` is the `return 1`
path. -/
def parsePort (optarg : String) : Option Nat :=
  let r := strtol0 optarg.data
  let port := toUInt32Nat r.1
  if r.2 ≠ [] ∨ port = 0 ∨ 0xffff ≤ port then none else some port

/-! Embedding of the option loop itself. -/

/-- The validated configuration `main` runs with after the option loop. -/
structure Config where
  pfx : Option String
  bindip : String
  port : Nat
  ssl : Bool
  upnp : Bool
  files : List String
deriving Repr, DecidableEq

/-- Outcome of the argument-processing phase: either `main` continues with a
configuration, or the process exits with the given code. -/
inductive ParseOutcome
  | success (cfg : Config)
  | exit (code : Nat)
deriving Repr, DecidableEq

/-- The mutable option state of `main` (lines 98-103) before operands are
attached. -/
structure PreConfig where
  pfx : Option String
  bindip : String
  port : Nat
  ssl : Bool
  upnp : Bool
deriving Repr, DecidableEq

/-- The defaults of lines 98-103: no prefix, bind `0.0.0.0`, port 0 (random),
SSL off, UPnP on. -/
def defaults : PreConfig :=
  { pfx := none, bindip := "0.0.0.0", port := 0, ssl := false, upnp := true }

/-- The `switch` cases for options without an argument. `'s'` and `'U'` set
flags, `'V'` prints the version and returns 0, and everything else — `'h'`
has no case, and `'?'` (unknown option) — falls to `default:`, which prints
the usage text and returns 0. -/
def applyFlag (c : Char) (cfg : PreConfig) : ParseOutcome ⊕ PreConfig :=
  if c = 's' then Sum.inr { cfg with ssl := true }
  else if c = 'U' then Sum.inr { cfg with upnp := false }
  else Sum.inl (ParseOutcome.exit 0)

/-- The `switch` cases for options with a required argument: `'b'` stores the
bind address, `'P'` stores the prefix, `'p'` validates the port (invalid port
returns 1). -/
def applyArgOpt (c : Char) (arg : String) (cfg : PreConfig) :
    ParseOutcome ⊕ PreConfig :=
  if c = 'b' then Sum.inr { cfg with bindip := arg }
  else if c = 'P' then Sum.inr { cfg with pfx := some arg }
  else if c = 'p' then
    match parsePort arg with
    | some n => Sum.inr { cfg with port := n }
    | none => Sum.inl (ParseOutcome.exit 1)
  else Sum.inl (ParseOutcome.exit 0)

/-- Result of processing one option token: an outcome that ends the loop, an
updated state, or a request for the next token as the argument of the option
character `c`. -/
inductive OptStep
  | done (out : ParseOutcome)
  | cont (cfg : PreConfig)
  | needArg (c : Char)
deriving Repr, DecidableEq

/-- Process one short-option cluster `-abc`. A required-argument option takes
the remainder of the cluster when non-empty, else requests the next token. An
unknown character yields `'?'`, which `default:` turns into usage and exit
0. -/
def shortCluster : List Char → PreConfig → OptStep
  | [], cfg => OptStep.cont cfg
  | c :: cs, cfg =>
    match lookupShort c with
    | none => OptStep.done (ParseOutcome.exit 0)
    | some true =>
      match cs with
      | [] => OptStep.needArg c
      | _ :: _ =>
        match applyArgOpt c (String.mk cs) cfg with
        | Sum.inl out => OptStep.done out
        | Sum.inr cfg' => OptStep.cont cfg'
    | some false =>
      match applyFlag c cfg with
      | Sum.inl out => OptStep.done out
      | Sum.inr cfg' => shortCluster cs cfg'

/-- Process one long-option token `--body` (where `body` may be `name` or
`name=value`). A required-argument option without an attached `=value`
requests the next token; a missing or ambiguous name, and an `=value` on an
option that takes none, yield `'?'` and hence usage and exit 0. -/
def handleLong (body : List Char) (cfg : PreConfig) : OptStep :=
  let p := splitEq body
  match matchLong p.1 with
  | none => OptStep.done (ParseOutcome.exit 0)
  | some o =>
    if o.hasArg then
      match p.2 with
      | some v =>
        match applyArgOpt o.val v cfg with
        | Sum.inl out => OptStep.done out
        | Sum.inr cfg' => OptStep.cont cfg'
      | none => OptStep.needArg o.val
    else
      match p.2 with
      | some _ => OptStep.done (ParseOutcome.exit 0)
      | none =>
        match applyFlag o.val cfg with
        | Sum.inl out => OptStep.done out
        | Sum.inr cfg' => OptStep.cont cfg'

/-- After the option loop: `argc == optind` (no operands) prints usage and
returns 1 (lines 146-151); otherwise the operands, each with a leading `./`
stripped (lines 153-158), become the served file list. -/
def finish (cfg : PreConfig) (ops : List String) : ParseOutcome :=
  match ops with
  | [] => ParseOutcome.exit 1
  | _ :: _ => ParseOutcome.success
      { pfx := cfg.pfx, bindip := cfg.bindip, port := cfg.port,
        ssl := cfg.ssl, upnp := cfg.upnp, files := ops.map normalize }

/-- The `getopt_long` loop over the remaining tokens, with the operands
collected so far (GNU permutation): `--` ends option scanning, `--x` is a
long option, `-xyz` (not a lone `-`) is a short cluster, anything else is an
operand. An option that requires an argument takes the next token; if none is
left, `getopt` yields `'?'` and `default:` exits 0. -/
def optLoop : List String → PreConfig → List String → ParseOutcome
  | [], cfg, ops => finish cfg ops
  | a :: rest, cfg, ops =>
    if a = "--" then finish cfg (ops ++ rest)
    else
      match a.data with
      | '-' :: '-' :: body =>
        match handleLong body cfg with
        | OptStep.done out => out
        | OptStep.cont cfg' => optLoop rest cfg' ops
        | OptStep.needArg c =>
          match rest with
          | [] => ParseOutcome.exit 0
          | v :: rest' =>
            match applyArgOpt c v cfg with
            | Sum.inl out => out
            | Sum.inr cfg' => optLoop rest' cfg' ops
      | '-' :: c0 :: cs0 =>
        match shortCluster (c0 :: cs0) cfg with
        | OptStep.done out => out
        | OptStep.cont cfg' => optLoop rest cfg' ops
        | OptStep.needArg c =>
          match rest with
          | [] => ParseOutcome.exit 0
          | v :: rest' =>
            match applyArgOpt c v cfg with
            | Sum.inl out => out
            | Sum.inr cfg' => optLoop rest' cfg' ops
      | _ => optLoop rest cfg (ops ++ [a])

/-- The whole argument-to-configuration phase of `main` on `argv[1..]`. -/
def parseArgs (args : List String) : ParseOutcome := optLoop args defaults []

end Pshs

namespace Pshs

/-! Helper lemmas: single steps of the option loop, and the preimage count of
the random port draw. -/

/-- Stepping the option loop over a long-option token whose handling ends the
loop with outcome `out`. -/
theorem optLoop_long_done (b : Char) (bs : List Char) (rest ops : List String)
    (cfg : PreConfig) (out : ParseOutcome)
    (h : handleLong (b :: bs) cfg = OptStep.done out) :
    optLoop (String.mk ('-' :: '-' :: b :: bs) :: rest) cfg ops = out := by
  have hne : (String.mk ('-' :: '-' :: b :: bs)) ≠ "--" := by
    intro hcontra
    have hd := congrArg String.data hcontra
    simp at hd
  unfold optLoop
  rw [if_neg hne]
  dsimp only
  split
  · rename_i body heq
    injection heq with ha heq1
    injection heq1 with hb heq2
    subst heq2
    rw [h]
  · rename_i x cc cs hno heq
    injection heq with ha hb
    injection hb with hc hd
    exact absurd hc.symm hno
  · rename_i x hA hB
    exact absurd rfl (hA (b :: bs))

/-- Stepping the option loop over a long option that takes the next token as
its argument, when applying that argument ends the loop. -/
theorem optLoop_long_needArg_inl (b : Char) (bs : List Char) (c : Char)
    (v : String) (rest ops : List String) (cfg : PreConfig) (out : ParseOutcome)
    (h : handleLong (b :: bs) cfg = OptStep.needArg c)
    (h2 : applyArgOpt c v cfg = Sum.inl out) :
    optLoop (String.mk ('-' :: '-' :: b :: bs) :: v :: rest) cfg ops = out := by
  have hne : (String.mk ('-' :: '-' :: b :: bs)) ≠ "--" := by
    intro hcontra
    have hd := congrArg String.data hcontra
    simp at hd
  unfold optLoop
  rw [if_neg hne]
  dsimp only
  split
  · rename_i body heq
    injection heq with ha heq1
    injection heq1 with hb heq2
    subst heq2
    rw [h]
    dsimp only
    rw [h2]
  · rename_i x cc cs hno heq
    injection heq with ha hb
    injection hb with hc hd
    exact absurd hc.symm hno
  · rename_i x hA hB
    exact absurd rfl (hA (b :: bs))

/-- Stepping the option loop over a long option that takes the next token as
its argument, when applying that argument updates the state. -/
theorem optLoop_long_needArg_inr (b : Char) (bs : List Char) (c : Char)
    (v : String) (rest ops : List String) (cfg cfg' : PreConfig)
    (h : handleLong (b :: bs) cfg = OptStep.needArg c)
    (h2 : applyArgOpt c v cfg = Sum.inr cfg') :
    optLoop (String.mk ('-' :: '-' :: b :: bs) :: v :: rest) cfg ops =
      optLoop rest cfg' ops := by
  have hne : (String.mk ('-' :: '-' :: b :: bs)) ≠ "--" := by
    intro hcontra
    have hd := congrArg String.data hcontra
    simp at hd
  conv_lhs => unfold optLoop
  rw [if_neg hne]
  dsimp only
  split
  · rename_i body heq
    injection heq with ha heq1
    injection heq1 with hb heq2
    subst heq2
    rw [h]
    dsimp only
    rw [h2]
  · rename_i x cc cs hno heq
    injection heq with ha hb
    injection hb with hc hd
    exact absurd hc.symm hno
  · rename_i x hA hB
    exact absurd rfl (hA (b :: bs))

/-- Exact preimage count of the draw `r % 0x7bff + 0x400` over the
`2^31` generator outputs: `⌊2^31 / 31743⌋` preimages, plus one for the
first `2^31 mod 31743` residues. -/
theorem drawCount_eq (v : Nat) (h1 : 1024 ≤ v) (h2 : v ≤ 32766) :
    drawCount v = 67652 + (if v - 1024 < 6212 then 1 else 0) := by
  have hm : 0 < 31743 := by norm_num
  have hfilter :
      (Finset.range randRange).filter (fun r => draw r = v) =
      (Finset.range randRange).filter (fun r => r ≡ (v - 1024) [MOD 31743]) := by
    apply Finset.filter_congr
    intro r _
    unfold draw
    unfold Nat.ModEq
    rw [Nat.mod_eq_of_lt (show v - 1024 < 31743 by omega)]
    omega
  unfold drawCount
  rw [hfilter]
  rw [← Nat.count_eq_card_filter_range]
  rw [Nat.count_modEq_card _ hm]
  rw [Nat.mod_eq_of_lt (show v - 1024 < 31743 by omega)]
  have hdiv : randRange / 31743 = 67652 := by norm_num [randRange]
  have hmod : randRange % 31743 = 6212 := by norm_num [randRange]
  rw [hdiv, hmod]

/-- Bridge between the code's scheme construction (`"http"` plus an `'s'` when
SSL is on) and the specification's phrasing (`https` iff TLS). -/
theorem scheme_bridge (ssl : Bool) :
    "http" ++ (if ssl then "s" else "") = (if ssl then "https" else "http") := by
  cases ssl <;> decide

/-- Bridge between the code's single-operand match and the specification's
phrasing (filename appended exactly when one file is served). -/
theorem filename_bridge (enc : String → String) (files : List String) :
    (match files with
     | [f] => enc f
     | _ => "") = (if files.length = 1 then enc files.head! else "") := by
  rcases files with _ | ⟨f, _ | ⟨g, t⟩⟩
  · rfl
  · rfl
  · simp

end Pshs

namespace Pshs

/-! Claim theorems. -/

/-- C1: the help text and spec present `--prefix PFX` as equivalent to
`-P PFX`, but the `opts` long-option table (main.cxx lines 62-73) has no
`prefix` entry, so `--prefix foo file` is an unrecognized option: the usage
text is printed and the process exits 0 with no prefix set, while
`-P foo file` succeeds with prefix `"foo"`. -/
theorem long_option_table_lacks_P_entry :
    parseArgs ["--prefix", "foo", "file"] = ParseOutcome.exit 0 ∧
    parseArgs ["-P", "foo", "file"] = ParseOutcome.success
      ⟨some "foo", "0.0.0.0", 0, false, true, ["file"]⟩ ∧
    opts.find? (fun o => o.name = "prefix") = none ∧
    matchLong "prefix" = none := by decide

/-- C2 counterexample: the argument vector `--bogus file` contains an unknown
flag, yet the process exits 0 (the usage/help path), not 1. -/
theorem unknown_flag_exit_code_counterexample :
    parseArgs ["--bogus", "file"] = ParseOutcome.exit 0 ∧
    parseArgs ["--bogus", "file"] ≠ ParseOutcome.exit 1 := by decide

/-- C2 amended: an unknown flag makes `getopt_long` yield `'?'`, which the
`switch` default case turns into printing the usage text and exiting 0 — the
same success path as `--help` — not exit code 1. -/
theorem unknown_flag_takes_usage_exit0_path (b : Char) (bs : List Char)
    (c : Char) (cs : List Char) (cfg : PreConfig) (rest ops : List String)
    (h1 : matchLong (splitEq (b :: bs)).1 = none) (h2 : lookupShort c = none) :
    handleLong (b :: bs) cfg = OptStep.done (ParseOutcome.exit 0) ∧
    shortCluster (c :: cs) cfg = OptStep.done (ParseOutcome.exit 0) ∧
    optLoop (String.mk ('-' :: '-' :: b :: bs) :: rest) cfg ops =
      ParseOutcome.exit 0 ∧
    parseArgs ["--bogus", "file"] = ParseOutcome.exit 0 ∧
    parseArgs ["-x", "file"] = ParseOutcome.exit 0 := by
  have hh : handleLong (b :: bs) cfg = OptStep.done (ParseOutcome.exit 0) := by
    unfold handleLong
    dsimp only
    rw [h1]
  refine ⟨hh, ?_, optLoop_long_done _ _ _ _ _ _ hh, by decide, by decide⟩
  show (match lookupShort c with
        | none => OptStep.done (ParseOutcome.exit 0)
        | some true =>
          match cs with
          | [] => OptStep.needArg c
          | _ :: _ =>
            match applyArgOpt c (String.mk cs) cfg with
            | Sum.inl out => OptStep.done out
            | Sum.inr cfg' => OptStep.cont cfg'
        | some false =>
          match applyFlag c cfg with
          | Sum.inl out => OptStep.done out
          | Sum.inr cfg' => shortCluster cs cfg') = OptStep.done (ParseOutcome.exit 0)
  rw [h2]

/-- C2 witness: the amended claim instantiated at the unknown long option
`--bogus` and the unknown short option `-x`. -/
theorem unknown_flag_takes_usage_exit0_path_witness :
    (matchLong (splitEq ('b' :: ['o', 'g', 'u', 's'])).1 = none ∧
     lookupShort 'x' = none) ∧
    (handleLong ('b' :: ['o', 'g', 'u', 's']) defaults =
       OptStep.done (ParseOutcome.exit 0) ∧
     shortCluster ('x' :: []) defaults = OptStep.done (ParseOutcome.exit 0) ∧
     optLoop (String.mk ('-' :: '-' :: 'b' :: ['o', 'g', 'u', 's']) :: [])
       defaults [] = ParseOutcome.exit 0 ∧
     parseArgs ["--bogus", "file"] = ParseOutcome.exit 0 ∧
     parseArgs ["-x", "file"] = ParseOutcome.exit 0) :=
  ⟨⟨by decide, by decide⟩,
   unknown_flag_takes_usage_exit0_path 'b' ['o', 'g', 'u', 's'] 'x' [] defaults
     [] [] (by decide) (by decide)⟩

/-- C3: in the signal-watcher installation loop, the stray `else;` empty
statement makes `event_add` unconditional, so a watcher whose `evsignal_new`
failed (here the third of the five) is still armed: the loop state shows
`installed = false` together with `armed = true`. -/
theorem sig_watcher_armed_despite_install_failure :
    sigInstallLoop [true, true, false, true, true] =
      [⟨true, false, true⟩, ⟨true, false, true⟩, ⟨false, true, true⟩,
       ⟨true, false, true⟩, ⟨true, false, true⟩] ∧
    (sigInstallStep false).installed = false ∧
    (sigInstallStep false).armed = true := by decide

/-- C4 counterexample: the port value 65535 is numeric and in [1,65535], and 0
is claimed to request a random port, yet both `--port 65535` and `--port 0`
make the process exit with code 1. -/
theorem port_boundary_rejected_counterexample :
    parseArgs ["--port", "65535", "f"] = ParseOutcome.exit 1 ∧
    parseArgs ["--port", "0", "f"] = ParseOutcome.exit 1 := by decide

/-- C4 amended: a `--port` value is accepted exactly when `strtol` (with its
overflow saturation to `LONG_MAX`/`LONG_MIN`) consumes it entirely and its
`unsigned int` value lies in [1,65534] — `port >= 0xffff` rejects 65535
itself; accepted values reach the configuration, rejected ones exit with
code 1; an overflowing value such as 2^64 + 1 saturates to `LONG_MAX`, whose
`unsigned int` value 0xFFFFFFFF is rejected; an explicit `--port 0` is
rejected, and only the default 0 (no `--port` given) triggers the random
draw, which lies in [1024,32766]. -/
theorem port_option_validation (s : String) (v : Int) (rest : List Char)
    (r : Nat) (h : strtol0 s.data = (v, rest)) :
    (parsePort s =
      if rest = [] ∧ 1 ≤ toUInt32Nat v ∧ toUInt32Nat v ≤ 65534
      then some (toUInt32Nat v) else none) ∧
    (∀ n, parsePort s = some n →
      parseArgs ["--port", s, "f"] =
        ParseOutcome.success ⟨none, "0.0.0.0", n, false, true, ["f"]⟩) ∧
    (parsePort s = none →
      parseArgs ["--port", s, "f"] = ParseOutcome.exit 1) ∧
    parseArgs ["--port", "65534", "f"] =
      ParseOutcome.success ⟨none, "0.0.0.0", 65534, false, true, ["f"]⟩ ∧
    parseArgs ["--port", "65535", "f"] = ParseOutcome.exit 1 ∧
    parseArgs ["--port", "0", "f"] = ParseOutcome.exit 1 ∧
    parseArgs ["--port", "18446744073709551617", "f"] = ParseOutcome.exit 1 ∧
    (1024 ≤ draw r ∧ draw r ≤ 32766) := by
  have happ : ∀ cfg : PreConfig, applyArgOpt 'p' s cfg =
      (match parsePort s with
       | some n => Sum.inr { cfg with port := n }
       | none => Sum.inl (ParseOutcome.exit 1)) := fun _ => rfl
  have hhl : handleLong ('p' :: ['o', 'r', 't']) defaults = OptStep.needArg 'p' := rfl
  refine ⟨?_, ?_, ?_, by decide, by decide, by decide, by decide,
    by unfold draw; omega⟩
  · unfold parsePort
    rw [h]
    dsimp only
    by_cases hrest : rest = []
    · subst hrest
      split_ifs with hA hB hC
      · exfalso
        rcases hA with hx | hx | hx
        · exact hx rfl
        · omega
        · omega
      · rfl
      · rfl
      · exfalso
        push_neg at hA
        exact hC ⟨rfl, by omega, by omega⟩
    · rw [if_pos (Or.inl hrest), if_neg (fun hB => hrest hB.1)]
  · intro n hn
    have happ2 : applyArgOpt 'p' s defaults = Sum.inr { defaults with port := n } := by
      rw [happ defaults, hn]
    calc parseArgs ["--port", s, "f"]
        = optLoop (String.mk ('-' :: '-' :: 'p' :: ['o', 'r', 't']) :: s :: ["f"])
            defaults [] := rfl
      _ = optLoop ["f"] { defaults with port := n } [] :=
          optLoop_long_needArg_inr 'p' ['o', 'r', 't'] 'p' s ["f"] [] defaults _
            hhl happ2
      _ = ParseOutcome.success ⟨none, "0.0.0.0", n, false, true, ["f"]⟩ := rfl
  · intro hn
    have happ2 : applyArgOpt 'p' s defaults = Sum.inl (ParseOutcome.exit 1) := by
      rw [happ defaults, hn]
    calc parseArgs ["--port", s, "f"]
        = optLoop (String.mk ('-' :: '-' :: 'p' :: ['o', 'r', 't']) :: s :: ["f"])
            defaults [] := rfl
      _ = ParseOutcome.exit 1 :=
          optLoop_long_needArg_inl 'p' ['o', 'r', 't'] 'p' s ["f"] [] defaults _
            hhl happ2

/-- C4 witness: the amended claim instantiated at the accepted decimal value
`80`. -/
theorem port_option_validation_witness :
    (strtol0 ("80".data) = ((80 : Int), ([] : List Char))) ∧
    ((parsePort "80" =
       if ([] : List Char) = [] ∧ 1 ≤ toUInt32Nat 80 ∧ toUInt32Nat 80 ≤ 65534
       then some (toUInt32Nat 80) else none) ∧
     (∀ n, parsePort "80" = some n →
       parseArgs ["--port", "80", "f"] =
         ParseOutcome.success ⟨none, "0.0.0.0", n, false, true, ["f"]⟩) ∧
     (parsePort "80" = none →
       parseArgs ["--port", "80", "f"] = ParseOutcome.exit 1) ∧
     parseArgs ["--port", "65534", "f"] =
       ParseOutcome.success ⟨none, "0.0.0.0", 65534, false, true, ["f"]⟩ ∧
     parseArgs ["--port", "65535", "f"] = ParseOutcome.exit 1 ∧
     parseArgs ["--port", "0", "f"] = ParseOutcome.exit 1 ∧
     parseArgs ["--port", "18446744073709551617", "f"] = ParseOutcome.exit 1 ∧
     (1024 ≤ draw 0 ∧ draw 0 ≤ 32766)) :=
  ⟨by decide, port_option_validation "80" 80 [] 0 (by decide)⟩

/-- C5 counterexample: over the whole generator range, no output maps to port
32767 (`random() % 0x7bff + 0x400` caps at 32766), and ports 1024 and 32766
have different preimage counts, so the weights are not all equal. -/
theorem random_port_draw_counterexample :
    drawCount 32767 = 0 ∧ drawCount 1024 = 67653 ∧ drawCount 32766 = 67652 ∧
    drawCount 1024 ≠ drawCount 32766 := by
  have h0 : drawCount 32767 = 0 := by
    unfold drawCount
    rw [Finset.card_eq_zero, Finset.filter_eq_empty_iff]
    intro r _
    unfold draw
    omega
  have ha := drawCount_eq 1024 (by norm_num) (by norm_num)
  have hb := drawCount_eq 32766 (by norm_num) (by norm_num)
  norm_num at ha hb
  exact ⟨h0, ha, hb, by omega⟩

/-- C5 amended: the drawn port lies in [1024,32766]; every value in that range
is attainable; and the distribution is only near-uniform: each port in the
range has 67652 or 67653 preimages among the `2^31` generator outputs. -/
theorem random_port_draw_near_uniform (r v : Nat) (h1 : 1024 ≤ v)
    (h2 : v ≤ 32766) :
    (1024 ≤ draw r ∧ draw r ≤ 32766) ∧
    (∃ r0, r0 < randRange ∧ draw r0 = v) ∧
    (drawCount v = 67652 ∨ drawCount v = 67653) := by
  refine ⟨by unfold draw; omega, ⟨v - 1024, ?_, ?_⟩, ?_⟩
  · unfold randRange; omega
  · unfold draw
    rw [Nat.mod_eq_of_lt (by omega)]
    omega
  · have h := drawCount_eq v h1 h2
    split_ifs at h <;> omega

/-- C5 witness: the amended claim instantiated at generator output 7 and port
2000. -/
theorem random_port_draw_near_uniform_witness :
    (1024 ≤ 2000 ∧ 2000 ≤ 32766) ∧
    ((1024 ≤ draw 7 ∧ draw 7 ≤ 32766) ∧
     (∃ r0, r0 < randRange ∧ draw r0 = 2000) ∧
     (drawCount 2000 = 67652 ∨ drawCount 2000 = 67653)) :=
  ⟨⟨by decide, by decide⟩,
   random_port_draw_near_uniform 7 2000 (by decide) (by decide)⟩

/-- C6: for every generator output, the drawn port lies in [1024,32767]
inclusive — never in the privileged range below 1024
and never above 32767. -/
theorem random_port_within_bounds (r : Nat) :
    1024 ≤ draw r ∧ draw r ≤ 32767 := by
  unfold draw
  omega

/-- C7 counterexample: the release order is not
watchers, listener, TLS context, event loop — the code releases the TLS
context before the listener. -/
theorem release_order_counterexample :
    releaseOrder ≠ [Resource.signalWatchers, Resource.listener,
      Resource.tlsContext, Resource.eventLoop] := by decide

/-- C7 amended: after the dispatch returns, the scope-exit destructors release
the signal watchers first, then the TLS context, then the HTTP
listener/socket, and the event loop last — the exact reverse of the ownership
chain event loop ⊃ listener ⊃ TLS context ⊃ signal watchers. -/
theorem release_order_reverse_of_chain :
    releaseOrder = [Resource.signalWatchers, Resource.tlsContext,
      Resource.listener, Resource.eventLoop] ∧
    releaseOrder = [Resource.eventLoop, Resource.listener,
      Resource.tlsContext, Resource.signalWatchers].reverse := by decide

/-- C8: with no prefix the index route is registered at `/`; with prefix `p`
at `/p/`; any other path is served by the generic file route; and only GET and
HEAD are allowed. -/
theorem route_registration (pfx : Option String) (p path : String)
    (h : path ≠ index_uri pfx) :
    route none "/" = Handler.index ∧
    route (some p) ("/" ++ p ++ "/") = Handler.index ∧
    route pfx path = Handler.file ∧
    allowedMethods = [Method.GET, Method.HEAD] := by
  refine ⟨by decide, ?_, ?_, by decide⟩
  · unfold route index_uri
    rw [if_pos rfl]
  · unfold route
    rw [if_neg h]

/-- C8 witness: routes instantiated with prefix `files` and the non-index path
`/other`. -/
theorem route_registration_witness :
    ("/other" ≠ index_uri (some "files")) ∧
    (route none "/" = Handler.index ∧
     route (some "files") ("/" ++ "files" ++ "/") = Handler.index ∧
     route (some "files") "/other" = Handler.file ∧
     allowedMethods = [Method.GET, Method.HEAD]) :=
  ⟨by decide, route_registration (some "files") "files" "/other" (by decide)⟩

/-- C9: the service URL is emitted only when an external address was resolved,
and then equals `scheme://address:port/`, followed by `prefix/` exactly when a
prefix is set, followed by the encoded filename exactly when exactly one file
is served; the scheme is `https` iff TLS is enabled. -/
theorem announced_url (enc : String → String) (ssl : Bool) (addr : String)
    (port : Nat) (pfx : Option String) (files : List String) :
    announce enc ssl none port pfx files = none ∧
    announce enc ssl (some addr) port pfx files = some
      ((if ssl then "https" else "http") ++ "://" ++ addr ++ ":" ++ toString port
        ++ "/"
        ++ (match pfx with
            | some p => p ++ "/"
            | none => "")
        ++ (if files.length = 1 then enc files.head! else "")) := by
  refine ⟨rfl, ?_⟩
  unfold announce server_uri
  rw [scheme_bridge, filename_bridge]

/-- C10: the `./` normalization strips exactly the first two characters and is
applied at most once per operand: `./a.txt` becomes `a.txt`, `././a.txt`
becomes `./a.txt` (still starting with `./`), and any operand not starting
with `./` — including `../a.txt`, `.` and the empty string — is unchanged. -/
theorem dotslash_normalization (s : String) (cs : List Char)
    (h : s.data.take 2 ≠ ['.', '/']) :
    normalize (String.mk ('.' :: '/' :: cs)) = String.mk cs ∧
    normalize "./a.txt" = "a.txt" ∧
    normalize "././a.txt" = "./a.txt" ∧
    (normalize "././a.txt").data.take 2 = ['.', '/'] ∧
    normalize "../a.txt" = "../a.txt" ∧
    normalize "." = "." ∧
    normalize "" = "" ∧
    normalize s = s := by
  refine ⟨rfl, by decide, by decide, by decide, by decide, by decide, by decide,
    ?_⟩
  unfold normalize
  split
  · rename_i rest heq
    exfalso
    apply h
    rw [heq]
    rfl
  · rfl

/-- C10 witness: the normalization instantiated at the operand `x.txt`, which
does not start with `./`. -/
theorem dotslash_normalization_witness :
    (("x.txt" : String).data.take 2 ≠ ['.', '/']) ∧
    (normalize (String.mk ('.' :: '/' :: ['a'])) = String.mk ['a'] ∧
     normalize "./a.txt" = "a.txt" ∧
     normalize "././a.txt" = "./a.txt" ∧
     (normalize "././a.txt").data.take 2 = ['.', '/'] ∧
     normalize "../a.txt" = "../a.txt" ∧
     normalize "." = "." ∧
     normalize "" = "" ∧
     normalize "x.txt" = "x.txt") :=
  ⟨by decide, dotslash_normalization "x.txt" ['a'] (by decide)⟩

end Pshs
